import Mathlib

/-!
Shallow embedding of the PowerStore `host` Ansible module
(`plugins/modules/host.py`): the reconciliation core that converges a
desired host specification against the observed state on the storage
array.  Remote calls are modelled explicitly: every mutating request the
module would issue (`create_host`, `modify_host` with add/remove
initiators or name/connectivity, `delete_host`) is collected in a list of
`MutationReq`, and `fail_json` exits are modelled as the `Outcome.fail`
constructor carrying the mutations issued before the failure.  The
repository (the remote array) is modelled as the list of hosts observed
at the start of the pass; the module never mutates it locally, so the
post-mutation refetch performed by `_create_result_dict` is abstracted as
the `HostDetails.fetched` tag naming the id that would be refetched.
-/

/-- Protocol tag of an initiator port; mirrors the module-level
`PORT_TYPES = ["iSCSI", "FC", "NVMe"]` choices list. -/
inductive PortType
  | iSCSI
  | FC
  | NVMe
deriving DecidableEq, Repr

/-- The `state` module parameter: `present` or `absent`. -/
inductive Stat
  | present
  | absent
deriving DecidableEq, Repr

/-- The `initiator_state` module parameter. -/
inductive InitState
  | presentInHost
  | absentInHost
deriving DecidableEq, Repr

/-- One entry of the `detailed_initiators` parameter.  All fields except
`port_name` are optional in the argument spec; `none` models a key whose
value is Python `None`. -/
structure DetailedInitiator where
  port_name : String
  port_type : Option PortType
  chap_single_username : Option String
  chap_single_password : Option String
  chap_mutual_username : Option String
  chap_mutual_password : Option String
deriving DecidableEq, Repr

/-- One entry of an observed host's `host_initiators`.  The module logic
reads only `port_name` from these records (the observed `port_type`,
chap usernames and `active_sessions` are never consulted). -/
structure HostInitiator where
  port_name : String
deriving DecidableEq, Repr

/-- An observed host as fetched from the array, restricted to the fields
the module logic reads. -/
structure ObservedHost where
  id : String
  name : String
  os_type : String
  host_initiators : List HostInitiator
  host_connectivity : String
deriving DecidableEq, Repr

/-- The caller-supplied module parameters (the `HostSpec`).  `os_type` and
`host_connectivity` are kept as strings since the module compares them as
strings against observed values; the Ansible `choices` lists restrict the
values a real invocation can carry but play no role in the logic. -/
structure HostParams where
  host_name : Option String
  host_id : Option String
  os_type : Option String
  initiators : Option (List String)
  detailed_initiators : Option (List DetailedInitiator)
  state : Stat
  initiator_state : Option InitState
  new_name : Option String
  host_connectivity : Option String
deriving DecidableEq, Repr

/-- Errors surfaced through `fail_json`, tagged by the failing check. -/
inductive ModErr
  | multipleHostsError
  | getHostError
  | missingInitiatorsError
  | missingInitiatorStateError
  | chapFcError
  | chapNvmeError
  | newNameOnCreateError
  | badInitiatorStateError
  | osTypeRequiredError
  | protocolMixError
  | osImmutableError
  | noneIterationError
deriving DecidableEq, Repr

/-- An initiator dict built in the simple-`initiators` branch of
`create_host`: only the keys `port_name` and `port_type`. -/
structure SimpleCreateInitiator where
  port_name : String
  port_type : PortType
deriving DecidableEq, Repr

/-- The initiator list carried by a create request: the simple branch
sends `port_name`/`port_type` dicts, the detailed branch sends the
caller's `detailed_initiators` dicts (port types filled in). -/
inductive CreateInitiators
  | fromSimple (inits : List SimpleCreateInitiator)
  | fromDetailed (inits : List DetailedInitiator)
deriving DecidableEq, Repr

/-- An initiator dict built by `add_host_initiators`.  The chap fields use
`Option (Option String)`: the outer `none` models a dict in which the
chap key is absent altogether (the FC and NVMe branches), while
`some v` models a present key whose value is the caller's `v`. -/
structure AddPayloadInitiator where
  port_name : String
  port_type : PortType
  chap_single_username : Option (Option String)
  chap_single_password : Option (Option String)
  chap_mutual_username : Option (Option String)
  chap_mutual_password : Option (Option String)
deriving DecidableEq, Repr

/-- A mutating request issued to the array. -/
inductive MutationReq
  | createReq (name : String) (os_type : String) (inits : CreateInitiators)
      (conn : Option String)
  | addReq (host_id : String) (adds : List AddPayloadInitiator)
  | removeReq (host_id : String) (removes : List String)
  | modifyReq (host_id : String) (new_name : Option String) (conn : Option String)
  | deleteReq (host_id : String)
deriving DecidableEq, Repr

/-- The `host_details` part of the module result: the empty dict, or the
record that `_create_result_dict` refetches for the given id. -/
inductive HostDetails
  | empty
  | fetched (host_id : Option String)
deriving DecidableEq, Repr

/-- The module result returned through `exit_json`. -/
structure PassResult where
  changed : Bool
  host_details : HostDetails
deriving DecidableEq, Repr

/-- A full pass: either `exit_json` with the result, or `fail_json` with
an error; both carry the mutating requests issued during the pass. -/
inductive Outcome
  | ok (r : PassResult) (muts : List MutationReq)
  | fail (e : ModErr) (muts : List MutationReq)
deriving DecidableEq, Repr

/-- Python truthiness of an optional string: `None` and the empty string
are falsy. -/
def optStrTruthy : Option String → Bool
  | none => false
  | some s => !s.isEmpty

/-- Python truthiness of an optional list: `None` and the empty list are
falsy. -/
def listOptTruthy {α : Type} : Option (List α) → Bool
  | none => false
  | some l => !l.isEmpty

/-- Python `str.startswith`, modelled character by character. -/
def strStartsWith (s p : String) : Bool := p.data.isPrefixOf s.data

/-- Equality of fallible results is decidable componentwise. -/
instance {ε α : Type} [DecidableEq ε] [DecidableEq α] : DecidableEq (Except ε α) :=
  fun x y =>
    match x, y with
    | Except.ok a, Except.ok b =>
      if h : a = b then isTrue (by rw [h]) else isFalse (fun he => by cases he; exact h rfl)
    | Except.ok _, Except.error _ => isFalse (fun he => by cases he)
    | Except.error _, Except.ok _ => isFalse (fun he => by cases he)
    | Except.error e, Except.error f =>
      if h : e = f then isTrue (by rw [h]) else isFalse (fun he => by cases he; exact h rfl)

/-- The three-way prefix classification as written inline in the simple
`initiators` branch of `create_host` (lines 477..485 of the source). -/
def classifyCreateSimple (s : String) : PortType :=
  if strStartsWith s "iqn" then PortType.iSCSI
  else if strStartsWith s "nqn" then PortType.NVMe
  else PortType.FC

/-- The three-way prefix classification as written inline in the
`detailed_initiators` branch of `create_host` (lines 505..511). -/
def classifyCreateDetailed (s : String) : PortType :=
  if strStartsWith s "iqn" then PortType.iSCSI
  else if strStartsWith s "nqn" then PortType.NVMe
  else PortType.FC

/-- Modelled from the spec: the Initiator Classifier contract of section
4.1 — identifier prefix "iqn" gives iSCSI, else prefix "nqn" gives NVMe,
otherwise FC, first match wins, no further validation.  Stated separately
from the per-site classifiers above so that their agreement is a theorem
rather than a definition. -/
def classifySpec (s : String) : PortType :=
  if strStartsWith s "iqn" then PortType.iSCSI
  else if strStartsWith s "nqn" then PortType.NVMe
  else PortType.FC

/-- Port-type inference applied to one `detailed_initiators` dict in
`create_host`: a missing `port_type` is filled in from the `port_name`
prefix, an explicit one is kept (lines 504..511). -/
def inferDetailedPortType (d : DetailedInitiator) : DetailedInitiator :=
  match d.port_type with
  | some _ => d
  | none => { d with port_type := some (classifyCreateDetailed d.port_name) }

/-- The initiator dict built per added initiator in the simple
`initiators` branch of `add_host_initiators` (lines 601..613): only
`port_name` and a prefix-classified `port_type`, no chap keys. -/
def mkSimpleAdd (init : String) : AddPayloadInitiator :=
  if strStartsWith init "iqn" then
    { port_name := init, port_type := PortType.iSCSI,
      chap_single_username := none, chap_single_password := none,
      chap_mutual_username := none, chap_mutual_password := none }
  else if strStartsWith init "nqn" then
    { port_name := init, port_type := PortType.NVMe,
      chap_single_username := none, chap_single_password := none,
      chap_mutual_username := none, chap_mutual_password := none }
  else
    { port_name := init, port_type := PortType.FC,
      chap_single_username := none, chap_single_password := none,
      chap_mutual_username := none, chap_mutual_password := none }

/-- The initiator dict built per added initiator and matching
`detailed_initiators` entry in `add_host_initiators` (lines 577..599):
the `port_type` is recomputed from the `port_name` prefix, and the four
chap keys are attached only in the "iqn" branch, copied from the matching
detailed entry. -/
def mkDetailedAdd (init : String) (d : DetailedInitiator) : AddPayloadInitiator :=
  if strStartsWith init "iqn" then
    { port_name := init, port_type := PortType.iSCSI,
      chap_single_username := some d.chap_single_username,
      chap_single_password := some d.chap_single_password,
      chap_mutual_username := some d.chap_mutual_username,
      chap_mutual_password := some d.chap_mutual_password }
  else if strStartsWith init "nqn" then
    { port_name := init, port_type := PortType.NVMe,
      chap_single_username := none, chap_single_password := none,
      chap_mutual_username := none, chap_mutual_password := none }
  else
    { port_name := init, port_type := PortType.FC,
      chap_single_username := none, chap_single_password := none,
      chap_mutual_username := none, chap_mutual_password := none }

/-- `PowerStoreHost._get_add_initiators`: Python computes
`list(set(existing + requested) - set(existing))`; the model keeps the
same elements as a deduplicated list. -/
def get_add_initiators (existing requested : List String) : List String :=
  ((existing ++ requested).filter (fun x => decide (x ∉ existing))).dedup

/-- `PowerStoreHost._get_remove_initiators`: Python computes
`list(set(existing).intersection(set(requested)))`; the model keeps the
same elements as a deduplicated list. -/
def get_remove_initiators (existing requested : List String) : List String :=
  (existing.filter (fun x => decide (x ∈ requested))).dedup

/-- `PowerStoreHost.validate_initiators` (lines 699..712): walks the
detailed initiators in order and fails on the first one that carries a
truthy `chap_single_username` or `chap_mutual_username` while its
explicitly supplied `port_type` equals FC or NVMe.  Note the comparison
is against the `port_type` field as supplied; no prefix inference has
happened at this point. -/
def validate_initiators : List DetailedInitiator → Except ModErr Unit
  | [] => Except.ok ()
  | i :: rest =>
    if optStrTruthy i.chap_single_username || optStrTruthy i.chap_mutual_username then
      if i.port_type = some PortType.FC then Except.error ModErr.chapFcError
      else if i.port_type = some PortType.NVMe then Except.error ModErr.chapNvmeError
      else validate_initiators rest
    else validate_initiators rest

/-- `PowerStoreHost.get_host_id_by_name` (lines 435..453): more than one
match fails, one match yields its id, no match (the 404 path) yields
`None`. -/
def get_host_id_by_name (repo : List ObservedHost) (name : String) :
    Except ModErr (Option String) :=
  match repo.filter (fun h => h.name == name) with
  | [] => Except.ok none
  | [h] => Except.ok (some h.id)
  | _ => Except.error ModErr.multipleHostsError

/-- `PowerStoreHost.get_host` (lines 419..433): fetch by id; a lookup
that yields nothing is a pass-fatal failure (the SDK raises and the
module calls `fail_json`). -/
def get_host (repo : List ObservedHost) (hid : String) : Except ModErr ObservedHost :=
  match repo.find? (fun h => h.id == hid) with
  | some h => Except.ok h
  | none => Except.error ModErr.getHostError

/-- Identity resolution at the top of `perform_module_operation`
(lines 736..742): a truthy `host_name` is resolved to an id by name
(overwriting any `host_id`), then a truthy id is fetched.  Returns the
resolved id and the observed host, if any. -/
def resolveHost (params : HostParams) (repo : List ObservedHost) :
    Except ModErr (Option String × Option ObservedHost) :=
  match (if optStrTruthy params.host_name
         then get_host_id_by_name repo (params.host_name.getD "")
         else Except.ok params.host_id) with
  | Except.error e => Except.error e
  | Except.ok hid =>
    if optStrTruthy hid then
      match get_host repo (hid.getD "") with
      | Except.error e => Except.error e
      | Except.ok h => Except.ok (hid, some h)
    else Except.ok (hid, none)

/-- The fail-fast precondition checks of `perform_module_operation`
(lines 745..762): initiator lists and `initiator_state` must be supplied
together, and when the detailed form is manipulated the chap validation
runs. -/
def preChecks (params : HostParams) : Except ModErr Unit :=
  if params.initiator_state.isSome
      && !listOptTruthy params.initiators
      && !listOptTruthy params.detailed_initiators then
    Except.error ModErr.missingInitiatorsError
  else if (listOptTruthy params.initiators || listOptTruthy params.detailed_initiators)
      && params.initiator_state.isNone then
    Except.error ModErr.missingInitiatorStateError
  else if listOptTruthy params.detailed_initiators && params.initiator_state.isSome then
    validate_initiators (params.detailed_initiators.getD [])
  else Except.ok ()

/-- `PowerStoreHost.create_host` (lines 455..527): requires `os_type`;
the simple branch classifies every identifier by prefix and rejects the
request when the classifications span all three protocol families; the
detailed branch fills in missing port types by prefix and performs no
protocol-mix check.  On success the issued create request is returned. -/
def create_host (params : HostParams) (host_name : String) :
    Except ModErr MutationReq :=
  match params.os_type with
  | none => Except.error ModErr.osTypeRequiredError
  | some os_type =>
    if listOptTruthy params.initiators then
      let inits := params.initiators.getD []
      let list_of_initiators :=
        inits.map (fun i => SimpleCreateInitiator.mk i (classifyCreateSimple i))
      let initiator_type := inits.map classifyCreateSimple
      if PortType.iSCSI ∈ initiator_type ∧ PortType.FC ∈ initiator_type
          ∧ PortType.NVMe ∈ initiator_type then
        Except.error ModErr.protocolMixError
      else
        Except.ok (MutationReq.createReq host_name os_type
          (CreateInitiators.fromSimple list_of_initiators) params.host_connectivity)
    else
      match params.detailed_initiators with
      | none => Except.error ModErr.noneIterationError
      | some dets =>
        Except.ok (MutationReq.createReq host_name os_type
          (CreateInitiators.fromDetailed (dets.map inferDetailedPortType))
          params.host_connectivity)

/-- The set of port names the invocation asks about: the detailed form's
port names when that form is used, else the simple list. -/
def requestedNames (params : HostParams) : List String :=
  if listOptTruthy params.detailed_initiators then
    (params.detailed_initiators.getD []).map (fun d => d.port_name)
  else params.initiators.getD []

/-- The `add_list_with_type` loop of `add_host_initiators` (lines
573..613): in the detailed form, every added name is paired with every
matching `detailed_initiators` entry through `mkDetailedAdd`; in the
simple form every added name is rebuilt through `mkSimpleAdd`. -/
def addPayload (params : HostParams) (add_list : List String) :
    List AddPayloadInitiator :=
  if listOptTruthy params.detailed_initiators then
    add_list.flatMap (fun init =>
      (params.detailed_initiators.getD []).filterMap (fun d =>
        if d.port_name == init then some (mkDetailedAdd init d) else none))
  else
    add_list.map mkSimpleAdd

/-- `PowerStoreHost.add_host_initiators` (lines 538..630): short-circuits
when the requested port names are already a subset of the existing ones;
otherwise computes the addition set, rebuilds each added initiator with a
prefix-classified port type (and, in the detailed form, the chap fields
of the matching detailed entry for "iqn" names), and issues one batch add
request when the built list is non-empty.  Returns the step's changed
flag and the requests it issued. -/
def add_host_initiators (params : HostParams) (host : ObservedHost) :
    Bool × List MutationReq :=
  let existing_inits := (host.host_initiators.map (fun i => i.port_name))
  if listOptTruthy params.initiators
      && (params.initiators.getD []).all (fun x => decide (x ∈ existing_inits)) then
    (false, [])
  else
    let initiator_list := (params.detailed_initiators.getD []).map (fun d => d.port_name)
    if listOptTruthy params.detailed_initiators
        && initiator_list.all (fun x => decide (x ∈ existing_inits)) then
      (false, [])
    else
      let add_list_with_type :=
        addPayload params (get_add_initiators existing_inits (requestedNames params))
      if 0 < add_list_with_type.length then
        (true, [MutationReq.addReq host.id add_list_with_type])
      else (false, [])

/-- `PowerStoreHost.remove_host_initiators` (lines 632..673):
short-circuits when the host has no initiators; otherwise intersects the
existing port names with the requested ones and issues one batch remove
request, by port name only, when the intersection is non-empty. -/
def remove_host_initiators (params : HostParams) (host : ObservedHost) :
    Bool × List MutationReq :=
  let existing_inits := (host.host_initiators.map (fun i => i.port_name))
  if existing_inits.length = 0 then (false, [])
  else
    let remove_list := get_remove_initiators existing_inits (requestedNames params)
    if 0 < remove_list.length then
      (true, [MutationReq.removeReq host.id remove_list])
    else (false, [])

/-- `is_modify_required` (lines 815..824): a modify is required when a
non-`None` `new_name` differs from the observed name or a non-`None`
`host_connectivity` differs from the observed connectivity. -/
def is_modify_required (host : ObservedHost) (new_name : Option String)
    (host_connectivity : Option String) : Bool :=
  (match new_name with
   | none => false
   | some n => decide (host.name ≠ n))
  || (match host_connectivity with
      | none => false
      | some c => decide (host.host_connectivity ≠ c))

/-- The create block of `perform_module_operation` (lines 764..779):
when the host is absent, `state` is present and a truthy `host_name` is
given, a truthy `new_name` and a wrong `initiator_state` fail fast, the
create request is issued, and the id is looked up again for the result.
Returns (changed, resolved id, issued requests). -/
def createStep (params : HostParams) (repo : List ObservedHost)
    (hostOpt : Option ObservedHost) (host_id : Option String) :
    Except (ModErr × List MutationReq) (Bool × Option String × List MutationReq) :=
  if params.state = Stat.present ∧ hostOpt = none ∧ optStrTruthy params.host_name then
    if optStrTruthy params.new_name then
      Except.error (ModErr.newNameOnCreateError, [])
    else if params.initiator_state ≠ some InitState.presentInHost then
      Except.error (ModErr.badInitiatorStateError, [])
    else
      match create_host params (params.host_name.getD "") with
      | Except.error e => Except.error (e, [])
      | Except.ok req =>
        match get_host_id_by_name repo (params.host_name.getD "") with
        | Except.error e => Except.error (e, [req])
        | Except.ok hid => Except.ok (true, hid, [req])
  else Except.ok (false, host_id, [])

/-- `PowerStoreHost._create_result_dict` (lines 714..719): an `absent`
pass returns the empty dict, a `present` pass refetches the host by the
resolved id. -/
def mkHostDetails (state : Stat) (host_id : Option String) : HostDetails :=
  match state with
  | Stat.absent => HostDetails.empty
  | Stat.present => HostDetails.fetched host_id

/-- `PowerStoreHost.perform_module_operation` (lines 721..812): identity
resolution, precondition checks, then the ordered create, immutable
`os_type` check, add-initiators, remove-initiators, rename/connectivity
modify and delete steps, combining the step flags into the final result.
The `changed` updates mirror the source: the add, remove and delete steps
or their flag into `changed`, while the create and modify steps assign
the result of the remote call (which is `True` whenever it returns). -/
def perform_module_operation (params : HostParams) (repo : List ObservedHost) :
    Outcome :=
  match resolveHost params repo with
  | Except.error e => Outcome.fail e []
  | Except.ok (host_id, hostOpt) =>
    match preChecks params with
    | Except.error e => Outcome.fail e []
    | Except.ok _ =>
      match createStep params repo hostOpt host_id with
      | Except.error (e, muts) => Outcome.fail e muts
      | Except.ok (changed0, host_id1, muts0) =>
        match hostOpt with
        | none =>
          Outcome.ok (PassResult.mk changed0 (mkHostDetails params.state host_id1)) muts0
        | some h =>
          if optStrTruthy params.os_type && decide (params.os_type.getD "" ≠ h.os_type) then
            Outcome.fail ModErr.osImmutableError muts0
          else
            let addRes :=
              if params.state = Stat.present
                  ∧ params.initiator_state = some InitState.presentInHost
                  ∧ (listOptTruthy params.initiators
                     || listOptTruthy params.detailed_initiators) = true then
                add_host_initiators params h
              else (false, [])
            let changed1 := addRes.1 || changed0
            let removeRes :=
              if params.state = Stat.present
                  ∧ params.initiator_state = some InitState.absentInHost
                  ∧ (listOptTruthy params.initiators
                     || listOptTruthy params.detailed_initiators) = true then
                remove_host_initiators params h
              else (false, [])
            let changed2 := removeRes.1 || changed1
            let modifyRes :=
              if params.state = Stat.present
                  ∧ (optStrTruthy params.new_name
                     || optStrTruthy params.host_connectivity) = true then
                (if is_modify_required h params.new_name params.host_connectivity then
                  (true, [MutationReq.modifyReq h.id params.new_name
                            params.host_connectivity])
                 else (false, []))
              else (false, [])
            let changed3 := if modifyRes.1 then true else changed2
            let deleteRes :=
              if params.state = Stat.absent then
                (true, [MutationReq.deleteReq h.id])
              else (false, [])
            let changed4 := deleteRes.1 || changed3
            Outcome.ok
              (PassResult.mk changed4 (mkHostDetails params.state host_id1))
              (muts0 ++ addRes.2 ++ removeRes.2 ++ modifyRes.2 ++ deleteRes.2)

/-- Concrete invocation for the chap-validation analysis: a detailed
initiator whose `port_name` is an FC WWN, whose `port_type` is not
supplied, and which carries a single-chap username. -/
def chapFcInit : DetailedInitiator :=
  { port_name := "21:00:00:24:ff:31:e9:fc", port_type := none,
    chap_single_username := some "chapuser",
    chap_single_password := some "chappassword1",
    chap_mutual_username := none, chap_mutual_password := none }

/-- Create invocation carrying `chapFcInit` through the detailed form. -/
def chapFcParams : HostParams :=
  { host_name := some "h1", host_id := none, os_type := some "Windows",
    initiators := none, detailed_initiators := some [chapFcInit],
    state := Stat.present, initiator_state := some InitState.presentInHost,
    new_name := none, host_connectivity := none }

/-- Detailed initiator with an explicit FC port type and a chap
username: the validation path that does fire. -/
def chapFcExplicitInit : DetailedInitiator :=
  { port_name := "21:00:00:24:ff:31:e9:aa", port_type := some PortType.FC,
    chap_single_username := some "chapuser",
    chap_single_password := none,
    chap_mutual_username := none, chap_mutual_password := none }

/-- Create invocation carrying `chapFcExplicitInit`. -/
def chapFcExplicitParams : HostParams :=
  { host_name := some "h1", host_id := none, os_type := some "Windows",
    initiators := none, detailed_initiators := some [chapFcExplicitInit],
    state := Stat.present, initiator_state := some InitState.presentInHost,
    new_name := none, host_connectivity := none }

/-- A detailed-form create invocation whose initiators classify to all
three protocol families. -/
def mixDetailedParams : HostParams :=
  { host_name := some "h2", host_id := none, os_type := some "Linux",
    initiators := none,
    detailed_initiators := some
      [ { port_name := "iqn.1998-01.com.vmware:a", port_type := none,
          chap_single_username := none, chap_single_password := none,
          chap_mutual_username := none, chap_mutual_password := none },
        { port_name := "nqn.2014-08.org.nvmexpress:b", port_type := none,
          chap_single_username := none, chap_single_password := none,
          chap_mutual_username := none, chap_mutual_password := none },
        { port_name := "21:00:00:24:ff:31:e9:fc", port_type := none,
          chap_single_username := none, chap_single_password := none,
          chap_mutual_username := none, chap_mutual_password := none } ],
    state := Stat.present, initiator_state := some InitState.presentInHost,
    new_name := none, host_connectivity := none }

/-- A simple-form create invocation whose initiators classify to all
three protocol families. -/
def mixSimpleParams : HostParams :=
  { host_name := some "h2", host_id := none, os_type := some "Linux",
    initiators := some ["iqn.a", "nqn.b", "21:00:00:24:ff:31:e9:fc"],
    detailed_initiators := none,
    state := Stat.present, initiator_state := some InitState.presentInHost,
    new_name := none, host_connectivity := none }

/-- An observed host with two FC initiators, used by the add/remove
scenarios. -/
def hostAB : ObservedHost :=
  { id := "idh", name := "h1", os_type := "Windows",
    host_initiators := [ { port_name := "A" }, { port_name := "B" } ],
    host_connectivity := "Local_Only" }

/-- Scenario B invocation: request initiator A on a host holding A and B. -/
def scenarioBParams : HostParams :=
  { host_name := some "h1", host_id := none, os_type := none,
    initiators := some ["A"], detailed_initiators := none,
    state := Stat.present, initiator_state := some InitState.presentInHost,
    new_name := none, host_connectivity := none }

/-- Scenario C invocation: remove initiators B and C from a host holding
A and B. -/
def scenarioCParams : HostParams :=
  { host_name := some "h1", host_id := none, os_type := none,
    initiators := some ["B", "C"], detailed_initiators := none,
    state := Stat.present, initiator_state := some InitState.absentInHost,
    new_name := none, host_connectivity := none }

/-- Scenario D invocation: change `os_type` on an existing host. -/
def scenarioDParams : HostParams :=
  { host_name := some "h1", host_id := none, os_type := some "Linux",
    initiators := none, detailed_initiators := none,
    state := Stat.present, initiator_state := none,
    new_name := none, host_connectivity := none }

/-- Scenario E invocation: `state=absent` for a name no host carries. -/
def scenarioEParams : HostParams :=
  { host_name := some "ghost", host_id := none, os_type := none,
    initiators := none, detailed_initiators := none,
    state := Stat.absent, initiator_state := none,
    new_name := none, host_connectivity := none }

/-- Invocation supplying `new_name` as the empty string on an existing
host whose name is non-empty. -/
def emptyRenameParams : HostParams :=
  { host_name := some "h1", host_id := none, os_type := none,
    initiators := none, detailed_initiators := none,
    state := Stat.present, initiator_state := none,
    new_name := some "", host_connectivity := none }

/-- Invocation renaming `hostAB` to a genuinely different name. -/
def renameParams : HostParams :=
  { host_name := some "h1", host_id := none, os_type := none,
    initiators := none, detailed_initiators := none,
    state := Stat.present, initiator_state := none,
    new_name := some "h1-new", host_connectivity := none }

/-- Detailed initiator whose caller-supplied port type (FC) disagrees
with its "iqn" prefix, carrying chap credentials. -/
def iqnMislabeled : DetailedInitiator :=
  { port_name := "iqn.1998-01.com.vmware:w", port_type := some PortType.FC,
    chap_single_username := some "chapuser",
    chap_single_password := some "chappassword1",
    chap_mutual_username := none, chap_mutual_password := none }

/-- Add invocation carrying `iqnMislabeled` by host id. -/
def mislabeledParams : HostParams :=
  { host_name := none, host_id := some "e1", os_type := none,
    initiators := none, detailed_initiators := some [iqnMislabeled],
    state := Stat.present, initiator_state := some InitState.presentInHost,
    new_name := none, host_connectivity := none }

/-- An observed host with no initiators. -/
def hostEmpty : ObservedHost :=
  { id := "e1", name := "he", os_type := "Windows", host_initiators := [],
    host_connectivity := "Local_Only" }

/-- Scenario B variant requesting a genuinely new initiator C. -/
def scenarioB2Params : HostParams :=
  { host_name := some "h1", host_id := none, os_type := none,
    initiators := some ["C"], detailed_initiators := none,
    state := Stat.present, initiator_state := some InitState.presentInHost,
    new_name := none, host_connectivity := none }

/-- Membership in the computed addition list. -/
theorem mem_get_add_initiators (E R : List String) (x : String) :
    x ∈ get_add_initiators E R ↔ x ∈ R ∧ x ∉ E := by
  simp only [get_add_initiators, List.mem_dedup, List.mem_filter, List.mem_append,
    decide_eq_true_eq]
  constructor
  · rintro ⟨h1 | h1, h2⟩
    · exact absurd h1 h2
    · exact ⟨h1, h2⟩
  · rintro ⟨h1, h2⟩
    exact ⟨Or.inr h1, h2⟩

/-- Membership in the computed removal list. -/
theorem mem_get_remove_initiators (E R : List String) (x : String) :
    x ∈ get_remove_initiators E R ↔ x ∈ E ∧ x ∈ R := by
  simp [get_remove_initiators, List.mem_dedup, List.mem_filter, decide_eq_true_eq]

/-- The addition list as a finite set is the requested-minus-existing
difference. -/
theorem get_add_toFinset (E R : List String) :
    (get_add_initiators E R).toFinset = R.toFinset \ E.toFinset := by
  ext x
  simp [mem_get_add_initiators]

/-- The removal list as a finite set is the existing-inter-requested
intersection. -/
theorem get_remove_toFinset (E R : List String) :
    (get_remove_initiators E R).toFinset = E.toFinset ∩ R.toFinset := by
  ext x
  simp [mem_get_remove_initiators]

/-- The addition list is empty exactly when the requested names are a
subset of the existing ones. -/
theorem get_add_eq_nil_iff (E R : List String) :
    get_add_initiators E R = [] ↔ R ⊆ E := by
  rw [List.eq_nil_iff_forall_not_mem]
  constructor
  · intro h x hx
    by_contra hxe
    exact h x ((mem_get_add_initiators E R x).mpr ⟨hx, hxe⟩)
  · intro h x hx
    rcases (mem_get_add_initiators E R x).mp hx with ⟨h1, h2⟩
    exact h2 (h h1)

/-- The removal list is empty exactly when no existing name is
requested. -/
theorem get_remove_eq_nil_iff (E R : List String) :
    get_remove_initiators E R = [] ↔ ∀ x ∈ E, x ∉ R := by
  rw [List.eq_nil_iff_forall_not_mem]
  constructor
  · intro h x hx hxr
    exact h x ((mem_get_remove_initiators E R x).mpr ⟨hx, hxr⟩)
  · intro h x hx
    rcases (mem_get_remove_initiators E R x).mp hx with ⟨h1, h2⟩
    exact h x h1 h2

/-- C7: the set differ computes requested-minus-existing additions and
existing-inter-requested removals, so the addition set is disjoint from
the existing set, the removal set is contained in both inputs, a request
equal to the existing set adds nothing, and empty inputs give empty
outputs. -/
theorem host_C7 (E R : List String) :
    (get_add_initiators E R).toFinset = R.toFinset \ E.toFinset
    ∧ (get_remove_initiators E R).toFinset = E.toFinset ∩ R.toFinset
    ∧ Disjoint (get_add_initiators E R).toFinset E.toFinset
    ∧ (get_remove_initiators E R).toFinset ⊆ E.toFinset
    ∧ (get_remove_initiators E R).toFinset ⊆ R.toFinset
    ∧ get_add_initiators E E = []
    ∧ get_add_initiators E [] = []
    ∧ get_remove_initiators E [] = []
    ∧ get_add_initiators [] [] = []
    ∧ get_remove_initiators [] [] = [] := by
  refine ⟨get_add_toFinset E R, get_remove_toFinset E R, ?_, ?_, ?_, ?_, ?_, ?_, ?_, ?_⟩
  · rw [get_add_toFinset]
    exact Finset.sdiff_disjoint
  · rw [get_remove_toFinset]
    exact Finset.inter_subset_left
  · rw [get_remove_toFinset]
    exact Finset.inter_subset_right
  · exact (get_add_eq_nil_iff E E).mpr (fun x hx => hx)
  · exact (get_add_eq_nil_iff E []).mpr (List.nil_subset E)
  · exact (get_remove_eq_nil_iff E []).mpr (fun x _ hx => (List.not_mem_nil x) hx)
  · exact (get_add_eq_nil_iff [] []).mpr (List.nil_subset [])
  · exact (get_remove_eq_nil_iff [] []).mpr (fun x hx => absurd hx (List.not_mem_nil x))

/-- C8: every site that infers a protocol from an identifier follows the
same first-match rule — "iqn" gives iSCSI, else "nqn" gives NVMe, else
FC — in the simple and detailed create branches and in the simple and
detailed add-initiators branches, with no further validation of the
identifier. -/
theorem host_C8 (s : String) (d : DetailedInitiator) :
    classifyCreateSimple s = classifySpec s
    ∧ classifyCreateDetailed s = classifySpec s
    ∧ (mkSimpleAdd s).port_type = classifySpec s
    ∧ (mkDetailedAdd s d).port_type = classifySpec s
    ∧ (classifySpec s = PortType.iSCSI ↔ strStartsWith s "iqn" = true)
    ∧ (classifySpec s = PortType.NVMe
        ↔ (strStartsWith s "iqn" = false ∧ strStartsWith s "nqn" = true))
    ∧ (classifySpec s = PortType.FC
        ↔ (strStartsWith s "iqn" = false ∧ strStartsWith s "nqn" = false)) := by
  unfold classifyCreateSimple classifyCreateDetailed classifySpec mkSimpleAdd mkDetailedAdd
  by_cases h1 : strStartsWith s "iqn" = true <;> by_cases h2 : strStartsWith s "nqn" = true <;>
    simp [h1, h2]

/-- C1 counterexample: a detailed initiator with a non-empty chap
username, no explicit `port_type`, and a `port_name` whose prefix
classifies as FC passes validation — `validate_initiators` never infers
the port type from the prefix — and the pass proceeds to issue a create
request in which that initiator reaches the remote side with inferred
port type FC and its chap credentials attached. -/
theorem host_C1_counterexample :
    optStrTruthy chapFcInit.chap_single_username = true
    ∧ chapFcInit.port_type = none
    ∧ classifySpec chapFcInit.port_name = PortType.FC
    ∧ validate_initiators [chapFcInit] = Except.ok ()
    ∧ perform_module_operation chapFcParams [] =
        Outcome.ok (PassResult.mk true (HostDetails.fetched none))
          [MutationReq.createReq "h1" "Windows"
            (CreateInitiators.fromDetailed
              [{ port_name := "21:00:00:24:ff:31:e9:fc",
                 port_type := some PortType.FC,
                 chap_single_username := some "chapuser",
                 chap_single_password := some "chappassword1",
                 chap_mutual_username := none,
                 chap_mutual_password := none }]) none] := by
  decide

/-- C2 counterexample: a create request supplied through the detailed
form whose initiators classify to all three protocol families iSCSI, FC
and NVMe is not rejected — the all-three-mix check exists only in the
simple-`initiators` branch — and the create request is issued. -/
theorem host_C2_counterexample :
    ((mixDetailedParams.detailed_initiators.getD []).map
        (fun d => classifySpec d.port_name)) =
      [PortType.iSCSI, PortType.NVMe, PortType.FC]
    ∧ perform_module_operation mixDetailedParams [] =
        Outcome.ok (PassResult.mk true (HostDetails.fetched none))
          [MutationReq.createReq "h2" "Linux"
            (CreateInitiators.fromDetailed
              ((mixDetailedParams.detailed_initiators.getD []).map
                inferDetailedPortType)) none] := by
  decide

/-- C6 counterexample: with `new_name` supplied as the empty string on an
existing host whose name differs, `is_modify_required` reports that a
supplied field differs, yet the pass issues no modify request and
returns `changed=false`, because the block guard tests Python truthiness
of `new_name` and the empty string is falsy. -/
theorem host_C6_counterexample :
    emptyRenameParams.new_name = some ""
    ∧ hostAB.name ≠ ""
    ∧ is_modify_required hostAB emptyRenameParams.new_name
        emptyRenameParams.host_connectivity = true
    ∧ perform_module_operation emptyRenameParams [hostAB] =
        Outcome.ok (PassResult.mk false (HostDetails.fetched (some "idh"))) [] := by
  decide

/-- The simple add payload keeps the port name. -/
theorem mkSimpleAdd_port_name (s : String) : (mkSimpleAdd s).port_name = s := by
  unfold mkSimpleAdd
  split
  · rfl
  · split
    · rfl
    · rfl

/-- The detailed add payload keeps the port name. -/
theorem mkDetailedAdd_port_name (s : String) (d : DetailedInitiator) :
    (mkDetailedAdd s d).port_name = s := by
  unfold mkDetailedAdd
  split
  · rfl
  · split
    · rfl
    · rfl

/-- The add payload is non-empty whenever the addition list is non-empty
and, in the detailed form, every added name has a matching detailed
entry. -/
theorem addPayload_ne_nil (params : HostParams) (al : List String)
    (hal : al ≠ [])
    (hmatch : listOptTruthy params.detailed_initiators = true →
      ∀ x ∈ al, x ∈ (params.detailed_initiators.getD []).map (fun d => d.port_name)) :
    addPayload params al ≠ [] := by
  unfold addPayload
  by_cases hd : listOptTruthy params.detailed_initiators = true
  · rw [if_pos hd]
    rcases List.exists_mem_of_ne_nil al hal with ⟨x, hx⟩
    rcases List.mem_map.mp (hmatch hd x hx) with ⟨d, hdmem, hdx⟩
    intro hnil
    have hmem : mkDetailedAdd x d ∈ al.flatMap (fun init =>
        (params.detailed_initiators.getD []).filterMap (fun e =>
          if e.port_name == init then some (mkDetailedAdd init e) else none)) := by
      rw [List.mem_flatMap]
      refine ⟨x, hx, ?_⟩
      rw [List.mem_filterMap]
      refine ⟨d, hdmem, ?_⟩
      rw [if_pos (by exact beq_iff_eq.mpr hdx)]
    rw [hnil] at hmem
    exact List.not_mem_nil _ hmem
  · rw [if_neg hd]
    intro hnil
    exact hal (List.map_eq_nil_iff.mp hnil)

/-- The port names of the add payload are exactly the addition list, as
sets, provided every added name has a matching detailed entry when the
detailed form is used. -/
theorem addPayload_names (params : HostParams) (al : List String)
    (hmatch : listOptTruthy params.detailed_initiators = true →
      ∀ x ∈ al, x ∈ (params.detailed_initiators.getD []).map (fun d => d.port_name)) :
    ((addPayload params al).map (fun a => a.port_name)).toFinset = al.toFinset := by
  unfold addPayload
  by_cases hd : listOptTruthy params.detailed_initiators = true
  · rw [if_pos hd]
    ext x
    simp only [List.mem_toFinset, List.mem_map, List.mem_flatMap, List.mem_filterMap]
    constructor
    · rintro ⟨a, ⟨init, hinit, d, _, hsome⟩, hax⟩
      by_cases hbeq : d.port_name == init
      · rw [if_pos hbeq] at hsome
        cases hsome
        rw [mkDetailedAdd_port_name] at hax
        cases hax
        exact hinit
      · rw [if_neg hbeq] at hsome
        cases hsome
    · intro hx
      rcases List.mem_map.mp (hmatch hd x hx) with ⟨d, hdmem, hdx⟩
      refine ⟨mkDetailedAdd x d, ⟨x, hx, d, hdmem, ?_⟩, mkDetailedAdd_port_name x d⟩
      rw [if_pos (beq_iff_eq.mpr hdx)]
  · rw [if_neg hd]
    ext x
    simp [List.mem_map, mkSimpleAdd_port_name]

/-- Every entry of a detailed-form add payload comes from a matching
`detailed_initiators` entry through `mkDetailedAdd`. -/
theorem addPayload_mem_detailed (params : HostParams) (al : List String)
    (e : AddPayloadInitiator)
    (hd : listOptTruthy params.detailed_initiators = true)
    (he : e ∈ addPayload params al) :
    ∃ d ∈ params.detailed_initiators.getD [],
      d.port_name = e.port_name ∧ e = mkDetailedAdd d.port_name d := by
  unfold addPayload at he
  rw [if_pos hd] at he
  rcases List.mem_flatMap.mp he with ⟨init, _, hmem⟩
  rcases List.mem_filterMap.mp hmem with ⟨d, hdmem, hsome⟩
  by_cases hbeq : d.port_name == init
  · rw [if_pos hbeq] at hsome
    cases hsome
    have hdx : d.port_name = init := beq_iff_eq.mp hbeq
    refine ⟨d, hdmem, ?_, ?_⟩
    · rw [mkDetailedAdd_port_name, hdx]
    · rw [hdx]
  · rw [if_neg hbeq] at hsome
    cases hsome

theorem requestedNames_detailed (params : HostParams)
    (hd : listOptTruthy params.detailed_initiators = true) :
    requestedNames params =
      (params.detailed_initiators.getD []).map (fun d => d.port_name) := by
  unfold requestedNames
  rw [if_pos hd]

theorem requestedNames_simple (params : HostParams)
    (hd : params.detailed_initiators = none) :
    requestedNames params = params.initiators.getD [] := by
  unfold requestedNames
  rw [hd]
  simp [listOptTruthy]

theorem add_host_initiators_subset (params : HostParams) (h : ObservedHost)
    (hg : (listOptTruthy params.initiators || listOptTruthy params.detailed_initiators) = true)
    (hmx : params.initiators = none ∨ params.detailed_initiators = none)
    (hsub : requestedNames params ⊆ h.host_initiators.map (fun i => i.port_name)) :
    add_host_initiators params h = (false, []) := by
  unfold add_host_initiators
  dsimp only
  split
  · rfl
  · split
    · rfl
    · exfalso
      rename_i hc1 hc2
      rcases hmx with h0 | h0
      · have hd : listOptTruthy params.detailed_initiators = true := by
          simpa [h0, listOptTruthy] using hg
        refine hc2 ?_
        rw [hd, Bool.true_and, List.all_eq_true]
        intro x hx
        exact decide_eq_true (hsub (by rw [requestedNames_detailed params hd]; exact hx))
      · have hi : listOptTruthy params.initiators = true := by
          simpa [h0, listOptTruthy] using hg
        refine hc1 ?_
        rw [hi, Bool.true_and, List.all_eq_true]
        intro x hx
        exact decide_eq_true (hsub (by rw [requestedNames_simple params h0]; exact hx))

theorem add_host_initiators_not_subset (params : HostParams) (h : ObservedHost)
    (hmx : params.initiators = none ∨ params.detailed_initiators = none)
    (hnsub : ¬ requestedNames params ⊆ h.host_initiators.map (fun i => i.port_name)) :
    add_host_initiators params h =
      (true, [MutationReq.addReq h.id
        (addPayload params (get_add_initiators
          (h.host_initiators.map (fun i => i.port_name)) (requestedNames params)))]) := by
  have haddne : get_add_initiators (h.host_initiators.map (fun i => i.port_name))
      (requestedNames params) ≠ [] := by
    intro hnil
    exact hnsub ((get_add_eq_nil_iff _ _).mp hnil)
  have hmatch : listOptTruthy params.detailed_initiators = true →
      ∀ x ∈ get_add_initiators (h.host_initiators.map (fun i => i.port_name))
          (requestedNames params),
        x ∈ (params.detailed_initiators.getD []).map (fun d => d.port_name) := by
    intro hd x hx
    rw [← requestedNames_detailed params hd]
    exact ((mem_get_add_initiators _ _ x).mp hx).1
  have hlen : 0 < (addPayload params (get_add_initiators
      (h.host_initiators.map (fun i => i.port_name)) (requestedNames params))).length :=
    List.length_pos.mpr (addPayload_ne_nil params _ haddne hmatch)
  unfold add_host_initiators
  dsimp only
  split
  · rename_i hc1
    exfalso
    rw [Bool.and_eq_true] at hc1
    rcases hc1 with ⟨hi, hall⟩
    rcases hmx with h0 | h0
    · rw [h0] at hi
      exact absurd hi (by simp [listOptTruthy])
    · refine hnsub (fun x hx => ?_)
      rw [requestedNames_simple params h0] at hx
      exact of_decide_eq_true (List.all_eq_true.mp hall x hx)
  · split
    · rename_i hc2
      exfalso
      rw [Bool.and_eq_true] at hc2
      rcases hc2 with ⟨hd, hall⟩
      refine hnsub (fun x hx => ?_)
      rw [requestedNames_detailed params hd] at hx
      exact of_decide_eq_true (List.all_eq_true.mp hall x hx)
    · rfl

theorem remove_host_initiators_noop (params : HostParams) (h : ObservedHost)
    (hrem : get_remove_initiators (h.host_initiators.map (fun i => i.port_name))
      (requestedNames params) = []) :
    remove_host_initiators params h = (false, []) := by
  unfold remove_host_initiators
  dsimp only
  split
  · rfl
  · rw [hrem]
    simp

theorem remove_host_initiators_op (params : HostParams) (h : ObservedHost)
    (hrem : get_remove_initiators (h.host_initiators.map (fun i => i.port_name))
      (requestedNames params) ≠ []) :
    remove_host_initiators params h =
      (true, [MutationReq.removeReq h.id
        (get_remove_initiators (h.host_initiators.map (fun i => i.port_name))
          (requestedNames params))]) := by
  unfold remove_host_initiators
  dsimp only
  split
  · rename_i hE
    exfalso
    refine hrem ((get_remove_eq_nil_iff _ _).mpr ?_)
    intro x hx
    rw [List.length_eq_zero.mp hE] at hx
    exact absurd hx (List.not_mem_nil x)
  · rw [if_pos (List.length_pos.mpr hrem)]

theorem createStep_some (params : HostParams) (repo : List ObservedHost)
    (h : ObservedHost) (hid : Option String) :
    createStep params repo (some h) hid = Except.ok (false, hid, []) := by
  unfold createStep
  simp

theorem pass_add_only (params : HostParams) (repo : List ObservedHost)
    (hid : Option String) (h : ObservedHost)
    (hres : resolveHost params repo = Except.ok (hid, some h))
    (hpre : preChecks params = Except.ok ())
    (hstate : params.state = Stat.present)
    (hint : params.initiator_state = some InitState.presentInHost)
    (hg : (listOptTruthy params.initiators || listOptTruthy params.detailed_initiators) = true)
    (hos : optStrTruthy params.os_type = false ∨ params.os_type = some h.os_type)
    (hnn : params.new_name = none)
    (hconn : params.host_connectivity = none) :
    perform_module_operation params repo =
      Outcome.ok (PassResult.mk (add_host_initiators params h).1 (HostDetails.fetched hid))
        (add_host_initiators params h).2 := by
  have hosb : (optStrTruthy params.os_type
      && decide (params.os_type.getD "" ≠ h.os_type)) = false := by
    rcases hos with h1 | h1
    · rw [h1, Bool.false_and]
    · rw [h1]
      simp
  unfold perform_module_operation
  rw [hres, hpre]
  dsimp only
  rw [createStep_some params repo h hid]
  dsimp only
  rw [hosb]
  simp only [hstate, hint, hg, hnn, hconn, mkHostDetails]
  simp [optStrTruthy]

theorem pass_remove_only (params : HostParams) (repo : List ObservedHost)
    (hid : Option String) (h : ObservedHost)
    (hres : resolveHost params repo = Except.ok (hid, some h))
    (hpre : preChecks params = Except.ok ())
    (hstate : params.state = Stat.present)
    (hint : params.initiator_state = some InitState.absentInHost)
    (hg : (listOptTruthy params.initiators || listOptTruthy params.detailed_initiators) = true)
    (hos : optStrTruthy params.os_type = false ∨ params.os_type = some h.os_type)
    (hnn : params.new_name = none)
    (hconn : params.host_connectivity = none) :
    perform_module_operation params repo =
      Outcome.ok (PassResult.mk (remove_host_initiators params h).1 (HostDetails.fetched hid))
        (remove_host_initiators params h).2 := by
  have hosb : (optStrTruthy params.os_type
      && decide (params.os_type.getD "" ≠ h.os_type)) = false := by
    rcases hos with h1 | h1
    · rw [h1, Bool.false_and]
    · rw [h1]
      simp
  unfold perform_module_operation
  rw [hres, hpre]
  dsimp only
  rw [createStep_some params repo h hid]
  dsimp only
  rw [hosb]
  simp only [hstate, hint, hg, hnn, hconn, mkHostDetails]
  simp [optStrTruthy]

theorem pass_modify_only (params : HostParams) (repo : List ObservedHost)
    (hid : Option String) (h : ObservedHost)
    (hres : resolveHost params repo = Except.ok (hid, some h))
    (hstate : params.state = Stat.present)
    (hnint : params.initiator_state = none)
    (hni : params.initiators = none)
    (hnd : params.detailed_initiators = none)
    (hos : optStrTruthy params.os_type = false ∨ params.os_type = some h.os_type) :
    perform_module_operation params repo =
      if (optStrTruthy params.new_name || optStrTruthy params.host_connectivity) = true then
        (if is_modify_required h params.new_name params.host_connectivity then
          Outcome.ok (PassResult.mk true (HostDetails.fetched hid))
            [MutationReq.modifyReq h.id params.new_name params.host_connectivity]
         else Outcome.ok (PassResult.mk false (HostDetails.fetched hid)) [])
      else Outcome.ok (PassResult.mk false (HostDetails.fetched hid)) [] := by
  have hpre : preChecks params = Except.ok () := by
    unfold preChecks
    simp [hnint, hni, hnd, listOptTruthy]
  have hosb : (optStrTruthy params.os_type
      && decide (params.os_type.getD "" ≠ h.os_type)) = false := by
    rcases hos with h1 | h1
    · rw [h1, Bool.false_and]
    · rw [h1]
      simp
  unfold perform_module_operation
  rw [hres, hpre]
  dsimp only
  rw [createStep_some params repo h hid]
  dsimp only
  rw [hosb]
  simp only [hstate, hnint, mkHostDetails]
  by_cases hg2 : (optStrTruthy params.new_name || optStrTruthy params.host_connectivity) = true
  · by_cases hm : is_modify_required h params.new_name params.host_connectivity = true
    · simp [hg2, hm]
    · simp [hg2, hm]
  · simp [hg2]

theorem add_host_initiators_flag (params : HostParams) (h : ObservedHost) :
    ((add_host_initiators params h).1 = true ↔ (add_host_initiators params h).2 ≠ []) := by
  unfold add_host_initiators
  dsimp only
  split
  · simp
  · split
    · simp
    · split
      · simp
      · simp

theorem remove_host_initiators_flag (params : HostParams) (h : ObservedHost) :
    ((remove_host_initiators params h).1 = true ↔ (remove_host_initiators params h).2 ≠ []) := by
  unfold remove_host_initiators
  dsimp only
  split
  · simp
  · split
    · simp
    · simp

theorem createStep_flag (params : HostParams) (repo : List ObservedHost)
    (hostOpt : Option ObservedHost) (hid : Option String)
    (b : Bool) (hid1 : Option String) (m : List MutationReq)
    (hcs : createStep params repo hostOpt hid = Except.ok (b, hid1, m)) :
    (b = true ↔ m ≠ []) := by
  unfold createStep at hcs
  split at hcs
  · split at hcs
    · cases hcs
    · split at hcs
      · cases hcs
      · split at hcs
        · cases hcs
        · split at hcs
          · cases hcs
          · cases hcs
            simp
  · cases hcs
    simp

theorem changedFormula (A R M D : Bool × List MutationReq)
    (hA : A.1 = true ↔ A.2 ≠ []) (hR : R.1 = true ↔ R.2 ≠ [])
    (hM : M.1 = true ↔ M.2 ≠ []) (hD : D.1 = true ↔ D.2 ≠ []) :
    ((D.1 || (if M.1 = true then true else (R.1 || (A.1 || false)))) = true
      ↔ (([] : List MutationReq) ++ A.2 ++ R.2 ++ M.2 ++ D.2) ≠ []) := by
  cases hA1 : A.1 <;> cases hR1 : R.1 <;> cases hM1 : M.1 <;> cases hD1 : D.1 <;>
    simp_all [List.append_eq_nil]

theorem host_C3_part1 (params : HostParams) (repo : List ObservedHost)
    (r : PassResult) (muts : List MutationReq)
    (hok : perform_module_operation params repo = Outcome.ok r muts) :
    (r.changed = true ↔ muts ≠ [])
    ∧ (params.state = Stat.absent → r.host_details = HostDetails.empty) := by
  unfold perform_module_operation at hok
  cases hres : resolveHost params repo with
  | error e =>
    rw [hres] at hok
    cases hok
  | ok pr =>
    rw [hres] at hok
    obtain ⟨hid, hostOpt⟩ := pr
    dsimp only at hok
    cases hpre : preChecks params with
    | error e =>
      rw [hpre] at hok
      cases hok
    | ok u =>
      rw [hpre] at hok
      dsimp only at hok
      cases hcs : createStep params repo hostOpt hid with
      | error pr2 =>
        rw [hcs] at hok
        obtain ⟨e, ms⟩ := pr2
        dsimp only at hok
        cases hok
      | ok trip =>
        obtain ⟨b, hid1, m⟩ := trip
        rw [hcs] at hok
        dsimp only at hok
        cases hostOpt with
        | none =>
          have hbm := createStep_flag params repo none hid b hid1 m hcs
          dsimp only at hok
          injection hok with h1 h2
          constructor
          · rw [← h1, ← h2]
            exact hbm
          · intro hs
            rw [← h1, hs]
            rfl
        | some h =>
          have h3 := (createStep_some params repo h hid).symm.trans hcs
          simp only [Except.ok.injEq, Prod.mk.injEq] at h3
          obtain ⟨hb, hhid, hm⟩ := h3
          subst hb
          subst hm
          dsimp only at hok
          split at hok
          · cases hok
          · injection hok with h1 h2
            constructor
            · rw [← h1, ← h2]
              refine changedFormula _ _ _ _ ?_ ?_ ?_ ?_
              · split
                · exact add_host_initiators_flag params h
                · simp
              · split
                · exact remove_host_initiators_flag params h
                · simp
              · split
                · split
                  · simp
                  · simp
                · simp
              · split
                · simp
                · simp
            · intro hs
              rw [← h1, hs]
              rfl

theorem pass_absent_nonexistent (params : HostParams) (repo : List ObservedHost)
    (name : String)
    (hname : params.host_name = some name) (hnne : name ≠ "")
    (hfil : repo.filter (fun h2 => h2.name == name) = [])
    (hs : params.state = Stat.absent)
    (hnint : params.initiator_state = none)
    (hni : params.initiators = none) (hnd : params.detailed_initiators = none) :
    perform_module_operation params repo =
      Outcome.ok (PassResult.mk false HostDetails.empty) [] := by
  have ht : optStrTruthy params.host_name = true := by
    rw [hname]
    have hie : name.isEmpty = false := by
      rw [Bool.eq_false_iff]
      intro he
      exact hnne ((String.isEmpty_iff name).mp he)
    simp [optStrTruthy, hie]
  have hres : resolveHost params repo = Except.ok (none, none) := by
    unfold resolveHost
    rw [if_pos ht, hname]
    simp only [Option.getD_some]
    unfold get_host_id_by_name
    rw [hfil]
    dsimp only
    simp [optStrTruthy]
  have hpre : preChecks params = Except.ok () := by
    unfold preChecks
    simp [hnint, hni, hnd, listOptTruthy]
  have hcs : createStep params repo none none = Except.ok (false, none, []) := by
    unfold createStep
    simp [hs]
  unfold perform_module_operation
  rw [hres, hpre]
  dsimp only
  rw [hcs]
  dsimp only
  rw [hs]
  rfl

theorem mkDetailedAdd_spec (s : String) (d : DetailedInitiator) :
    (mkDetailedAdd s d).port_type = classifySpec s
    ∧ (strStartsWith s "iqn" = false →
        (mkDetailedAdd s d).chap_single_username = none
        ∧ (mkDetailedAdd s d).chap_single_password = none
        ∧ (mkDetailedAdd s d).chap_mutual_username = none
        ∧ (mkDetailedAdd s d).chap_mutual_password = none)
    ∧ (strStartsWith s "iqn" = true →
        (mkDetailedAdd s d).chap_single_username = some d.chap_single_username
        ∧ (mkDetailedAdd s d).chap_single_password = some d.chap_single_password
        ∧ (mkDetailedAdd s d).chap_mutual_username = some d.chap_mutual_username
        ∧ (mkDetailedAdd s d).chap_mutual_password = some d.chap_mutual_password) := by
  unfold mkDetailedAdd classifySpec
  by_cases h1 : strStartsWith s "iqn" = true <;> by_cases h2 : strStartsWith s "nqn" = true <;>
    simp [h1, h2]

/-- C3: in every successful pass the reported `changed` flag is true
exactly when some step issued a mutating request (each step's own flag is
true exactly when it issued its request, see the flag lemmas), the
returned host details are the empty record whenever `state=absent`, and a
`state=absent` pass over a name no host carries succeeds with
`changed=false` and no delete request. -/
theorem host_C3 (params : HostParams) (repo : List ObservedHost) :
    (∀ r muts, perform_module_operation params repo = Outcome.ok r muts →
      (r.changed = true ↔ muts ≠ [])
      ∧ (params.state = Stat.absent → r.host_details = HostDetails.empty))
    ∧ (∀ name, params.host_name = some name → name ≠ "" →
        repo.filter (fun h2 => h2.name == name) = [] →
        params.state = Stat.absent →
        params.initiator_state = none →
        params.initiators = none →
        params.detailed_initiators = none →
        perform_module_operation params repo =
          Outcome.ok (PassResult.mk false HostDetails.empty) []) := by
  constructor
  · intro r muts hok
    exact host_C3_part1 params repo r muts hok
  · intro name h1 h2 h3 h4 h5 h6 h7
    exact pass_absent_nonexistent params repo name h1 h2 h3 h4 h5 h6 h7

/-- Witness for C3: the Scenario E invocation returns changed=false with
no mutation, and the changed flag of that successful pass indeed equals
the emptiness test of its issued mutations. -/
theorem host_C3_witness :
    perform_module_operation scenarioEParams [] =
      Outcome.ok (PassResult.mk false HostDetails.empty) []
    ∧ (false = true ↔ ([] : List MutationReq) ≠ []) := by
  have hE := (host_C3 scenarioEParams []).2 "ghost" rfl (by decide) rfl rfl rfl rfl rfl
  refine ⟨hE, ?_⟩
  have h1 := (host_C3 scenarioEParams []).1 (PassResult.mk false HostDetails.empty) [] hE
  exact h1.1

/-- C4: in an add-initiators pass on an existing host, the requested
port names are a subset of the existing ones exactly when the computed
addition list is empty; in that case the pass returns `changed=false`
and issues no request, and otherwise it issues exactly one batch add
request whose port-name set is precisely requested minus existing, and
returns `changed=true`. -/
theorem host_C4 (params : HostParams) (repo : List ObservedHost)
    (hid : Option String) (h : ObservedHost)
    (hres : resolveHost params repo = Except.ok (hid, some h))
    (hpre : preChecks params = Except.ok ())
    (hstate : params.state = Stat.present)
    (hint : params.initiator_state = some InitState.presentInHost)
    (hg : (listOptTruthy params.initiators || listOptTruthy params.detailed_initiators) = true)
    (hmx : params.initiators = none ∨ params.detailed_initiators = none)
    (hos : optStrTruthy params.os_type = false ∨ params.os_type = some h.os_type)
    (hnn : params.new_name = none)
    (hconn : params.host_connectivity = none) :
    (requestedNames params ⊆ h.host_initiators.map (fun i => i.port_name)
      ↔ get_add_initiators (h.host_initiators.map (fun i => i.port_name))
          (requestedNames params) = [])
    ∧ (requestedNames params ⊆ h.host_initiators.map (fun i => i.port_name) →
        perform_module_operation params repo =
          Outcome.ok (PassResult.mk false (HostDetails.fetched hid)) [])
    ∧ (¬ requestedNames params ⊆ h.host_initiators.map (fun i => i.port_name) →
        ∃ payload, payload ≠ []
          ∧ perform_module_operation params repo =
              Outcome.ok (PassResult.mk true (HostDetails.fetched hid))
                [MutationReq.addReq h.id payload]
          ∧ (payload.map (fun a => a.port_name)).toFinset =
              (requestedNames params).toFinset
                \ (h.host_initiators.map (fun i => i.port_name)).toFinset) := by
  have hpass := pass_add_only params repo hid h hres hpre hstate hint hg hos hnn hconn
  refine ⟨(get_add_eq_nil_iff _ _).symm, ?_, ?_⟩
  · intro hsub
    rw [hpass, add_host_initiators_subset params h hg hmx hsub]
  · intro hnsub
    have hmatch : listOptTruthy params.detailed_initiators = true →
        ∀ x ∈ get_add_initiators (h.host_initiators.map (fun i => i.port_name))
            (requestedNames params),
          x ∈ (params.detailed_initiators.getD []).map (fun d => d.port_name) := by
      intro hd x hx
      rw [← requestedNames_detailed params hd]
      exact ((mem_get_add_initiators _ _ x).mp hx).1
    have haddne : get_add_initiators (h.host_initiators.map (fun i => i.port_name))
        (requestedNames params) ≠ [] := by
      intro hnil
      exact hnsub ((get_add_eq_nil_iff _ _).mp hnil)
    refine ⟨addPayload params (get_add_initiators
        (h.host_initiators.map (fun i => i.port_name)) (requestedNames params)),
      addPayload_ne_nil params _ haddne hmatch, ?_, ?_⟩
    · rw [hpass, add_host_initiators_not_subset params h hmx hnsub]
    · rw [addPayload_names params _ hmatch, get_add_toFinset]

/-- Witness for C4: on a host holding initiators A and B, requesting A
with present-in-host intent issues nothing and reports changed=false,
while requesting C issues one batch add for exactly the set difference. -/
theorem host_C4_witness :
    perform_module_operation scenarioBParams [hostAB] =
      Outcome.ok (PassResult.mk false (HostDetails.fetched (some "idh"))) []
    ∧ (∃ payload, payload ≠ []
        ∧ perform_module_operation scenarioB2Params [hostAB] =
            Outcome.ok (PassResult.mk true (HostDetails.fetched (some "idh")))
              [MutationReq.addReq "idh" payload]
        ∧ (payload.map (fun a => a.port_name)).toFinset =
            (requestedNames scenarioB2Params).toFinset
              \ (hostAB.host_initiators.map (fun i => i.port_name)).toFinset) := by
  constructor
  · exact (host_C4 scenarioBParams [hostAB] (some "idh") hostAB (by decide) (by decide)
      rfl rfl (by decide) (Or.inr rfl) (Or.inl rfl) rfl rfl).2.1 (by decide)
  · exact (host_C4 scenarioB2Params [hostAB] (some "idh") hostAB (by decide) (by decide)
      rfl rfl (by decide) (Or.inr rfl) (Or.inl rfl) rfl rfl).2.2 (by decide)

/-- C5: in a remove-initiators pass on an existing host, the pass issues
nothing and reports changed=false when the host has no initiators or the
computed removal list (existing inter requested, over port names) is
empty; otherwise it issues exactly one batch remove request carrying
precisely that intersection, as bare port names, and reports
changed=true. -/
theorem host_C5 (params : HostParams) (repo : List ObservedHost)
    (hid : Option String) (h : ObservedHost)
    (hres : resolveHost params repo = Except.ok (hid, some h))
    (hpre : preChecks params = Except.ok ())
    (hstate : params.state = Stat.present)
    (hint : params.initiator_state = some InitState.absentInHost)
    (hg : (listOptTruthy params.initiators || listOptTruthy params.detailed_initiators) = true)
    (hos : optStrTruthy params.os_type = false ∨ params.os_type = some h.os_type)
    (hnn : params.new_name = none)
    (hconn : params.host_connectivity = none) :
    ((h.host_initiators = [] ∨
        get_remove_initiators (h.host_initiators.map (fun i => i.port_name))
          (requestedNames params) = []) →
      perform_module_operation params repo =
        Outcome.ok (PassResult.mk false (HostDetails.fetched hid)) [])
    ∧ (get_remove_initiators (h.host_initiators.map (fun i => i.port_name))
          (requestedNames params) ≠ [] →
        perform_module_operation params repo =
          Outcome.ok (PassResult.mk true (HostDetails.fetched hid))
            [MutationReq.removeReq h.id
              (get_remove_initiators (h.host_initiators.map (fun i => i.port_name))
                (requestedNames params))]
        ∧ (get_remove_initiators (h.host_initiators.map (fun i => i.port_name))
              (requestedNames params)).toFinset =
            (h.host_initiators.map (fun i => i.port_name)).toFinset
              ∩ (requestedNames params).toFinset) := by
  have hpass := pass_remove_only params repo hid h hres hpre hstate hint hg hos hnn hconn
  constructor
  · intro hcase
    have hrem : get_remove_initiators (h.host_initiators.map (fun i => i.port_name))
        (requestedNames params) = [] := by
      rcases hcase with hE | hr
      · rw [hE]
        exact (get_remove_eq_nil_iff _ _).mpr (fun x hx => by simp at hx)
      · exact hr
    rw [hpass, remove_host_initiators_noop params h hrem]
  · intro hrem
    refine ⟨?_, get_remove_toFinset _ _⟩
    rw [hpass, remove_host_initiators_op params h hrem]

/-- Witness for C5: on a host holding A and B, requesting removal of B
and C issues exactly one remove request for the single name B and
reports changed=true. -/
theorem host_C5_witness :
    perform_module_operation scenarioCParams [hostAB] =
      Outcome.ok (PassResult.mk true (HostDetails.fetched (some "idh")))
        [MutationReq.removeReq "idh"
          (get_remove_initiators (hostAB.host_initiators.map (fun i => i.port_name))
            (requestedNames scenarioCParams))]
    ∧ get_remove_initiators (hostAB.host_initiators.map (fun i => i.port_name))
        (requestedNames scenarioCParams) = ["B"] := by
  refine ⟨?_, by decide⟩
  exact ((host_C5 scenarioCParams [hostAB] (some "idh") hostAB (by decide) (by decide)
    rfl rfl (by decide) (Or.inl rfl) rfl rfl).2 (by decide)).1

/-- C6 (amended): on an existing host with `state=present`, a modify
request is issued exactly when the truthiness guard on `new_name` or
`host_connectivity` opens the block and `is_modify_required` reports a
supplied field differing from the observed state; `is_modify_required`
itself is true exactly when a supplied (non-None) field differs.  A
supplied-but-empty `new_name` with no connectivity leaves the block
closed, so no modify is issued even though the name differs. -/
theorem host_C6_amended (params : HostParams) (repo : List ObservedHost)
    (hid : Option String) (h : ObservedHost)
    (hres : resolveHost params repo = Except.ok (hid, some h))
    (hstate : params.state = Stat.present)
    (hnint : params.initiator_state = none)
    (hni : params.initiators = none)
    (hnd : params.detailed_initiators = none)
    (hos : optStrTruthy params.os_type = false ∨ params.os_type = some h.os_type) :
    (is_modify_required h params.new_name params.host_connectivity = true ↔
      ((∃ n, params.new_name = some n ∧ h.name ≠ n)
        ∨ (∃ c, params.host_connectivity = some c ∧ h.host_connectivity ≠ c)))
    ∧ ((optStrTruthy params.new_name || optStrTruthy params.host_connectivity) = true →
        (is_modify_required h params.new_name params.host_connectivity = true →
          perform_module_operation params repo =
            Outcome.ok (PassResult.mk true (HostDetails.fetched hid))
              [MutationReq.modifyReq h.id params.new_name params.host_connectivity])
        ∧ (is_modify_required h params.new_name params.host_connectivity = false →
          perform_module_operation params repo =
            Outcome.ok (PassResult.mk false (HostDetails.fetched hid)) []))
    ∧ ((optStrTruthy params.new_name || optStrTruthy params.host_connectivity) = false →
        perform_module_operation params repo =
          Outcome.ok (PassResult.mk false (HostDetails.fetched hid)) []) := by
  have hpass := pass_modify_only params repo hid h hres hstate hnint hni hnd hos
  refine ⟨?_, ?_, ?_⟩
  · unfold is_modify_required
    cases params.new_name with
    | none => cases params.host_connectivity with
      | none => simp
      | some c => simp
    | some n => cases params.host_connectivity with
      | none => simp
      | some c => simp
  · intro hguard
    constructor
    · intro hm
      rw [hpass, if_pos hguard, if_pos hm]
    · intro hm
      rw [hpass, if_pos hguard, if_neg (by rw [hm]; exact Bool.false_ne_true)]
  · intro hguard
    rw [hpass, if_neg (by rw [hguard]; exact Bool.false_ne_true)]

/-- Witness for C6 (amended): renaming host h1 to h1-new issues exactly
one modify request and reports changed=true. -/
theorem host_C6_amended_witness :
    perform_module_operation renameParams [hostAB] =
      Outcome.ok (PassResult.mk true (HostDetails.fetched (some "idh")))
        [MutationReq.modifyReq "idh" (some "h1-new") none] := by
  exact ((host_C6_amended renameParams [hostAB] (some "idh") hostAB (by decide)
    rfl rfl rfl rfl (Or.inl rfl)).2.1 (by decide)).1 (by decide)

/-- C9: when the host exists, `os_type` is supplied and differs from the
observed one, and the earlier precondition checks pass, the pass fails
with the immutable-field error having issued no mutating request. -/
theorem host_C9 (params : HostParams) (repo : List ObservedHost)
    (hid : Option String) (h : ObservedHost) (os : String)
    (hres : resolveHost params repo = Except.ok (hid, some h))
    (hpre : preChecks params = Except.ok ())
    (hos : params.os_type = some os)
    (hosne : os ≠ "")
    (hdiff : os ≠ h.os_type) :
    perform_module_operation params repo = Outcome.fail ModErr.osImmutableError [] := by
  have hie : os.isEmpty = false := by
    rw [Bool.eq_false_iff]
    intro he
    exact hosne ((String.isEmpty_iff os).mp he)
  have hosb : (optStrTruthy params.os_type
      && decide (params.os_type.getD "" ≠ h.os_type)) = true := by
    rw [hos]
    simp [optStrTruthy, hie, hdiff]
  unfold perform_module_operation
  rw [hres, hpre]
  dsimp only
  rw [createStep_some params repo h hid]
  dsimp only
  rw [hosb]
  simp

/-- Witness for C9: Scenario D — requesting os_type Linux on a Windows
host fails with the immutable-field error and no mutation. -/
theorem host_C9_witness :
    perform_module_operation scenarioDParams [hostAB] =
      Outcome.fail ModErr.osImmutableError [] := by
  exact host_C9 scenarioDParams [hostAB] (some "idh") hostAB "Linux" (by decide)
    (by decide) rfl (by decide) (by decide)

/-- C10: every initiator of a detailed-form batch add payload comes from
a matching detailed entry through `mkDetailedAdd`, whose port type is
always recomputed from the port-name prefix (silently overriding any
caller-supplied port type), whose chap keys are attached, copied from
the matching entry, only for "iqn"-prefixed names, and which carries
only port name and port type for FC and NVMe names. -/
theorem host_C10 (params : HostParams) (h : ObservedHost)
    (dets : List DetailedInitiator)
    (hdet : params.detailed_initiators = some dets) (hne : dets ≠ []) :
    (∀ hostid payload,
      (add_host_initiators params h).2 = [MutationReq.addReq hostid payload] →
      ∀ e ∈ payload,
        e.port_type = classifySpec e.port_name
        ∧ (∃ d ∈ dets, d.port_name = e.port_name ∧ e = mkDetailedAdd d.port_name d))
    ∧ (∀ s d, (mkDetailedAdd s d).port_type = classifySpec s
        ∧ (strStartsWith s "iqn" = false →
            (mkDetailedAdd s d).chap_single_username = none
            ∧ (mkDetailedAdd s d).chap_single_password = none
            ∧ (mkDetailedAdd s d).chap_mutual_username = none
            ∧ (mkDetailedAdd s d).chap_mutual_password = none)
        ∧ (strStartsWith s "iqn" = true →
            (mkDetailedAdd s d).chap_single_username = some d.chap_single_username
            ∧ (mkDetailedAdd s d).chap_single_password = some d.chap_single_password
            ∧ (mkDetailedAdd s d).chap_mutual_username = some d.chap_mutual_username
            ∧ (mkDetailedAdd s d).chap_mutual_password = some d.chap_mutual_password)) := by
  have hd : listOptTruthy params.detailed_initiators = true := by
    rw [hdet]
    cases dets with
    | nil => exact absurd rfl hne
    | cons a l => rfl
  constructor
  · intro hostid payload hpay e he
    unfold add_host_initiators at hpay
    dsimp only at hpay
    split at hpay
    · simp at hpay
    · split at hpay
      · simp at hpay
      · split at hpay
        · simp only [List.cons.injEq, MutationReq.addReq.injEq, and_true] at hpay
          obtain ⟨-, hP⟩ := hpay
          rcases addPayload_mem_detailed params _ e hd (hP ▸ he) with ⟨d, hdmem, hdpn, hde⟩
          rw [hdet] at hdmem
          simp only [Option.getD_some] at hdmem
          have hpt : e.port_type = classifySpec d.port_name := by
            rw [hde]
            exact (mkDetailedAdd_spec d.port_name d).1
          refine ⟨?_, ⟨d, hdmem, hdpn, hde⟩⟩
          rw [hpt, hdpn]
        · simp at hpay
  · intro s d
    exact mkDetailedAdd_spec s d

/-- Witness for C10: a detailed initiator labelled FC by the caller but
carrying an iqn-prefixed name is sent with recomputed port type iSCSI,
as the matching entry rebuilt through `mkDetailedAdd`. -/
theorem host_C10_witness :
    (mkDetailedAdd iqnMislabeled.port_name iqnMislabeled).port_type =
      classifySpec (mkDetailedAdd iqnMislabeled.port_name iqnMislabeled).port_name
    ∧ (∃ d ∈ [iqnMislabeled],
        d.port_name = (mkDetailedAdd iqnMislabeled.port_name iqnMislabeled).port_name
        ∧ mkDetailedAdd iqnMislabeled.port_name iqnMislabeled =
            mkDetailedAdd d.port_name d) := by
  exact (host_C10 mislabeledParams hostEmpty [iqnMislabeled] rfl (by decide)).1
    "e1" [mkDetailedAdd iqnMislabeled.port_name iqnMislabeled] (by decide)
    (mkDetailedAdd iqnMislabeled.port_name iqnMislabeled) (by decide)

/-- C1 (amended): validation inspects only the explicitly supplied port
type — it never infers one from the port-name prefix.  It succeeds
exactly when no detailed initiator combines a truthy chap username with
an explicit FC or NVMe port type, and whenever it would fail on the
supplied detailed initiators (with initiator intent set), the whole pass
fails with that validation error before any mutating request. -/
theorem host_C1_amended :
    (∀ inits : List DetailedInitiator,
      validate_initiators inits = Except.ok () ↔
        ∀ i ∈ inits,
          (optStrTruthy i.chap_single_username || optStrTruthy i.chap_mutual_username) = true →
          i.port_type ≠ some PortType.FC ∧ i.port_type ≠ some PortType.NVMe)
    ∧ (∀ (params : HostParams) (repo : List ObservedHost)
        (pr : Option String × Option ObservedHost) (e : ModErr),
        listOptTruthy params.detailed_initiators = true →
        params.initiator_state.isSome = true →
        resolveHost params repo = Except.ok pr →
        validate_initiators (params.detailed_initiators.getD []) = Except.error e →
        perform_module_operation params repo = Outcome.fail e []) := by
  constructor
  · intro inits
    induction inits with
    | nil => simp [validate_initiators]
    | cons i rest ih =>
      have vcons : validate_initiators (i :: rest) =
          if (optStrTruthy i.chap_single_username
              || optStrTruthy i.chap_mutual_username) = true then
            (if i.port_type = some PortType.FC then Except.error ModErr.chapFcError
             else if i.port_type = some PortType.NVMe then Except.error ModErr.chapNvmeError
             else validate_initiators rest)
          else validate_initiators rest := rfl
      rw [vcons]
      by_cases hch : (optStrTruthy i.chap_single_username
          || optStrTruthy i.chap_mutual_username) = true
      · rw [if_pos hch]
        by_cases hFC : i.port_type = some PortType.FC
        · rw [if_pos hFC]
          exact iff_of_false (by intro hcon; cases hcon)
            (fun hall => (hall i (List.mem_cons_self i rest) hch).1 hFC)
        · by_cases hNV : i.port_type = some PortType.NVMe
          · rw [if_neg hFC, if_pos hNV]
            exact iff_of_false (by intro hcon; cases hcon)
              (fun hall => (hall i (List.mem_cons_self i rest) hch).2 hNV)
          · rw [if_neg hFC, if_neg hNV, ih]
            constructor
            · intro hall j hj hchj
              rcases List.mem_cons.mp hj with rfl | hj2
              · exact ⟨hFC, hNV⟩
              · exact hall j hj2 hchj
            · intro hall j hj hchj
              exact hall j (List.mem_cons_of_mem i hj) hchj
      · rw [if_neg hch, ih]
        constructor
        · intro hall j hj hchj
          rcases List.mem_cons.mp hj with rfl | hj2
          · exact absurd hchj hch
          · exact hall j hj2 hchj
        · intro hall j hj
          exact hall j (List.mem_cons_of_mem i hj)
  · intro params repo pr e hd hiS hres hval
    have hpre : preChecks params = Except.error e := by
      unfold preChecks
      obtain ⟨v, hv⟩ := Option.isSome_iff_exists.mp hiS
      rw [hv, hd]
      simp [hval]
    obtain ⟨hid, ho⟩ := pr
    unfold perform_module_operation
    rw [hres]
    dsimp only
    rw [hpre]

/-- Witness for C1 (amended): an initiator with explicit FC port type
and a chap username makes the pass fail with the FC chap error before
any mutation, while an empty detailed list passes validation. -/
theorem host_C1_amended_witness :
    perform_module_operation chapFcExplicitParams [] =
      Outcome.fail ModErr.chapFcError []
    ∧ validate_initiators [] = Except.ok () := by
  constructor
  · exact host_C1_amended.2 chapFcExplicitParams [] (none, none) ModErr.chapFcError
      (by decide) (by decide) (by decide) (by decide)
  · exact (host_C1_amended.1 []).mpr (by simp)

/-- C2 (amended): the all-three protocol-mix rejection applies only to
the simple `initiators` form of a create: a simple-form create whose
classified initiators span iSCSI, FC and NVMe fails with the mix error
and issues no create request, any simple-form combination of at most two
families is accepted, and a detailed-form create performs no mix check
at all, issuing the create request whatever families its initiators
span. -/
theorem host_C2_amended (params : HostParams) (name os : String)
    (hos : params.os_type = some os) :
    (∀ inits : List String, params.initiators = some inits → inits ≠ [] →
      ((PortType.iSCSI ∈ inits.map classifyCreateSimple
          ∧ PortType.FC ∈ inits.map classifyCreateSimple
          ∧ PortType.NVMe ∈ inits.map classifyCreateSimple) →
        create_host params name = Except.error ModErr.protocolMixError)
      ∧ (¬ (PortType.iSCSI ∈ inits.map classifyCreateSimple
          ∧ PortType.FC ∈ inits.map classifyCreateSimple
          ∧ PortType.NVMe ∈ inits.map classifyCreateSimple) →
        create_host params name = Except.ok (MutationReq.createReq name os
          (CreateInitiators.fromSimple
            (inits.map (fun i => SimpleCreateInitiator.mk i (classifyCreateSimple i))))
          params.host_connectivity)))
    ∧ (∀ dets : List DetailedInitiator,
        params.initiators = none → params.detailed_initiators = some dets →
        create_host params name = Except.ok (MutationReq.createReq name os
          (CreateInitiators.fromDetailed (dets.map inferDetailedPortType))
          params.host_connectivity)) := by
  constructor
  · intro inits hinits hne
    have hi : listOptTruthy params.initiators = true := by
      rw [hinits]
      cases inits with
      | nil => exact absurd rfl hne
      | cons a l => rfl
    constructor
    · intro hmix
      unfold create_host
      rw [hos]
      dsimp only
      rw [if_pos hi, hinits]
      simp only [Option.getD_some]
      rw [if_pos hmix]
    · intro hmix
      unfold create_host
      rw [hos]
      dsimp only
      rw [if_pos hi, hinits]
      simp only [Option.getD_some]
      rw [if_neg hmix]
  · intro dets hni hnd
    have hi : listOptTruthy params.initiators = false := by
      rw [hni]
      rfl
    unfold create_host
    rw [hos]
    dsimp only
    rw [if_neg (by rw [hi]; exact Bool.false_ne_true), hnd]

/-- Witness for C2 (amended): the simple-form mixed create is rejected
with the protocol-mix error, while the detailed-form mixed create is
accepted and issues its create request. -/
theorem host_C2_amended_witness :
    create_host mixSimpleParams "h2" = Except.error ModErr.protocolMixError
    ∧ create_host mixDetailedParams "h2" = Except.ok (MutationReq.createReq "h2" "Linux"
        (CreateInitiators.fromDetailed
          ((mixDetailedParams.detailed_initiators.getD []).map inferDetailedPortType))
        none) := by
  constructor
  · exact ((host_C2_amended mixSimpleParams "h2" "Linux" rfl).1
      ["iqn.a", "nqn.b", "21:00:00:24:ff:31:e9:fc"] rfl (by decide)).1 (by decide)
  · exact (host_C2_amended mixDetailedParams "h2" "Linux" rfl).2
      (mixDetailedParams.detailed_initiators.getD []) rfl rfl
